import Mathlib

/-!
Verification of the resumable harvesting-and-reconciliation engine of the
Planning-applications repository.

The development shallowly embeds the pure control flow of the pipeline
scripts (the initial sharded harvest worker, the failure classifier, the
page-level and download-level retry workers, and the reconciliation merge)
over explicit environment types that stand for the external portal: each
navigation attempt, summary-region read, and per-icon artifact resolution
is an input to the embedded function, and the embedded function computes
exactly the record / dataset the script would write.

Ledger rows are modelled with the exact column set of the CSV files
written by the scripts; the serialized observation_urls column keeps its
string form, with semicolon joining and splitting embedded explicitly.
-/

/-! ## String utilities mirroring the Python string operations used -/

/-- The characters of the first list are an initial segment of the second. -/
def beginsWith : List Char → List Char → Bool
  | [], _ => true
  | _ :: _, [] => false
  | a :: as, b :: bs => a == b && beginsWith as bs

/-- The first list occurs contiguously somewhere inside the second
(Python infix test used by statements such as checking a marker in text). -/
def occursIn (needle : List Char) : List Char → Bool
  | [] => beginsWith needle []
  | c :: cs => beginsWith needle (c :: cs) || occursIn needle cs

/-- Python substring containment between strings. -/
def containsSub (needle hay : String) : Bool :=
  occursIn needle.data hay.data

/-- Python str.strip: remove leading and trailing whitespace. -/
def pyStrip (s : String) : String :=
  String.mk (((s.data.dropWhile Char.isWhitespace).reverse.dropWhile
      Char.isWhitespace).reverse)

/-- Auxiliary splitter: accumulate the current token (reversed) while
scanning, emitting a token at each semicolon, as Python split does. -/
def splitSemiAux : List Char → List Char → List String
  | acc, [] => [String.mk acc.reverse]
  | acc, c :: cs =>
    if c == ';' then String.mk acc.reverse :: splitSemiAux [] cs
    else splitSemiAux (c :: acc) cs

/-- Python s.split with a semicolon separator. -/
def splitSemi (s : String) : List String :=
  splitSemiAux [] s.data

/-- Python str.join with a semicolon separator. -/
def joinSemi : List String → String
  | [] => ""
  | [s] => s
  | s :: t :: rest => s ++ ";" ++ joinSemi (t :: rest)

/-- The position list recorded in a serialized observation_urls column,
as every script reads it back: empty string means no positions, any other
string is split on semicolons.  Matches the guarded split in the
download-retry script. -/
def parsePositions (s : String) : List String :=
  if s = "" then [] else splitSemi s

/-! ## Ledger rows (the CSV schema shared by every pass) -/

/-- One ledger row, with the exact columns every pass writes. -/
structure Record where
  worker_id : Nat
  row_index : Nat
  application_number : String
  no_record_found : Nat
  has_third_party_observation : Bool
  n_observation_letters : Nat
  observation_urls : String
  error : String
deriving Repr, DecidableEq

/-! ## Basic facts about the splitter and joiner -/

theorem splitSemiAux_ne_nil (acc cs : List Char) : splitSemiAux acc cs ≠ [] := by
  induction cs generalizing acc with
  | nil => simp [splitSemiAux]
  | cons c cs ih =>
    by_cases h : c == ';'
    · simp [splitSemiAux, h]
    · simp [splitSemiAux, h]
      exact ih _

theorem splitSemiAux_no_semi (acc cs : List Char)
    (hacc : ';' ∉ acc) :
    ∀ t ∈ splitSemiAux acc cs, ';' ∉ t.data := by
  induction cs generalizing acc with
  | nil =>
    intro t ht
    simp [splitSemiAux] at ht
    subst ht
    simpa using fun h => hacc (List.mem_reverse.mp h)
  | cons c cs ih =>
    intro t ht
    by_cases h : c == ';'
    · simp [splitSemiAux, h] at ht
      rcases ht with ht | ht
      · subst ht
        simpa using fun hm => hacc (List.mem_reverse.mp hm)
      · exact ih [] (by simp) t ht
    · simp [splitSemiAux, h] at ht
      refine ih (c :: acc) ?_ t ht
      intro hm
      rcases List.mem_cons.mp hm with rfl | hm
      · simp at h
      · exact hacc hm

/-- Every token produced by the semicolon split is semicolon-free. -/
theorem splitSemi_no_semi (s : String) :
    ∀ t ∈ splitSemi s, ';' ∉ t.data :=
  splitSemiAux_no_semi [] s.data (by simp)

theorem splitSemiAux_eq_singleton_empty (acc cs : List Char)
    (h : splitSemiAux acc cs = [""]) : acc = [] ∧ cs = [] := by
  induction cs generalizing acc with
  | nil =>
    simp [splitSemiAux] at h
    constructor
    · have : acc.reverse = ("" : String).data := congrArg String.data h
      simpa using this
    · rfl
  | cons c cs ih =>
    by_cases hc : c == ';'
    · simp [splitSemiAux, hc] at h
      exact absurd h.2 (splitSemiAux_ne_nil [] cs)
    · simp [splitSemiAux, hc] at h
      have := (ih (c :: acc) h).1
      simp at this

/-- The parsed position list is never the single empty token. -/
theorem parsePositions_ne_singleton_empty (s : String) :
    parsePositions s ≠ [""] := by
  unfold parsePositions
  by_cases hs : s = ""
  · simp [hs]
  · simp [hs, splitSemi]
    intro h
    have h2 := (splitSemiAux_eq_singleton_empty [] s.data h).2
    apply hs
    cases s
    simp at h2
    subst h2
    rfl

theorem splitSemiAux_append_semi (acc xs ys : List Char) (hxs : ';' ∉ xs) :
    splitSemiAux acc (xs ++ ';' :: ys)
      = String.mk (acc.reverse ++ xs) :: splitSemiAux [] ys := by
  induction xs generalizing acc with
  | nil => simp [splitSemiAux]
  | cons x xs ih =>
    have hx : ¬(x == ';') = true := by
      simp
      intro h
      exact hxs (by simp [h])
    rw [List.cons_append]
    simp only [splitSemiAux]
    rw [if_neg hx]
    rw [ih (x :: acc) (fun h => hxs (List.mem_cons.mpr (Or.inr h)))]
    simp

theorem splitSemiAux_no_semi_all (acc cs : List Char) (hcs : ';' ∉ cs) :
    splitSemiAux acc cs = [String.mk (acc.reverse ++ cs)] := by
  induction cs generalizing acc with
  | nil => simp [splitSemiAux]
  | cons c cs ih =>
    have hc : ¬(c == ';') = true := by
      simp
      intro h
      exact hcs (by simp [h])
    simp only [splitSemiAux]
    rw [if_neg hc]
    rw [ih (c :: acc) (fun h => hcs (List.mem_cons.mpr (Or.inr h)))]
    simp

/-- Splitting the semicolon join recovers the original token list, as long
as every token is semicolon-free and the list is not the lone empty token
(in which case the join serializes to the empty string). -/
theorem splitSemi_joinSemi (l : List String)
    (hfree : ∀ t ∈ l, ';' ∉ t.data) (hne : l ≠ []) :
    splitSemi (joinSemi l) = l := by
  induction l with
  | nil => exact absurd rfl hne
  | cons s rest ih =>
    cases rest with
    | nil =>
      simp [joinSemi, splitSemi]
      rw [splitSemiAux_no_semi_all [] s.data (hfree s (by simp))]
      simp
    | cons t rest2 =>
      have hdata : (s ++ ";" ++ joinSemi (t :: rest2)).data
          = s.data ++ ';' :: (joinSemi (t :: rest2)).data := by
        simp [String.data_append]
      simp only [joinSemi, splitSemi, hdata]
      rw [splitSemiAux_append_semi [] s.data _ (hfree s (by simp))]
      have := ih (fun u hu => hfree u (List.mem_cons.mpr (Or.inr hu))) (by simp)
      simp [splitSemi] at this
      simp [this]

/-- The empty-string guard composed with the round trip: parsing the join
gives back the token list whenever tokens are semicolon-free and the list
is not the lone empty token. -/
theorem parsePositions_joinSemi (l : List String)
    (hfree : ∀ t ∈ l, ';' ∉ t.data) (hne : l ≠ [""]) :
    parsePositions (joinSemi l) = l := by
  cases l with
  | nil => simp [parsePositions, joinSemi]
  | cons s rest =>
    unfold parsePositions
    by_cases hj : joinSemi (s :: rest) = ""
    · exfalso
      cases rest with
      | nil =>
        simp [joinSemi] at hj
        exact hne (by simp [hj])
      | cons t rest2 =>
        have : (joinSemi (s :: t :: rest2)).data
            = s.data ++ ';' :: (joinSemi (t :: rest2)).data := by
          simp [joinSemi, String.data_append]
        rw [hj] at this
        simp at this
    · simp only [if_neg hj]
      exact splitSemi_joinSemi _ hfree (by simp)

/-! ## Portal environment types

Each script's interaction with the portal is captured by explicit inputs:
the summary-region reads, the sequence of listing pages actually visited
(pagination stops at the first page whose Next control is absent or
disabled, so the visited pages form a finite list), and the outcome of
each per-icon artifact resolution attempt. -/

/-- The listing summary region: how many info elements match the
selector, and the text of successive inner-text reads (the production
scripts read once; the tester reads twice with a pause between). -/
structure SummaryEnv where
  infoCount : Nat
  read0 : String
  read1 : String
deriving Repr, DecidableEq

/-- The marker text the scripts look for in the summary region. -/
def NO_RECORDS_MARKER : String := "0 to 0 of 0"

/-- Embeds page_has_no_records of the harvest scripts (same body in the
initial worker and in both retry scripts): a single read of the summary
region, substring-tested against the marker; a missing element reports
false. -/
def page_has_no_records (env : SummaryEnv) : Bool :=
  if env.infoCount = 0 then false
  else containsSub NO_RECORDS_MARKER env.read0

/-- Modelled from the spec: the no-records confirmation the spec
describes, reading the summary region, pausing, reading it again, and
classifying NO_RECORDS only if the two reads agree and contain the
marker.  (This double read exists in the standalone tester script but not
in the harvest passes.) -/
def page_has_no_records_double_read (env : SummaryEnv) : Bool :=
  if env.infoCount = 0 then false
  else if env.read0 ≠ env.read1 then false
  else containsSub NO_RECORDS_MARKER env.read1

/-- Outcome of one artifact-resolution attempt in the initial worker
(0.scrape has no local-file shortcut): either the click resolves to a
document locator and the download succeeds, or any failure occurs. -/
inductive IconOutcome where
  | resolved (url : String)
  | failed
deriving Repr, DecidableEq

/-- The value appended at the icon's position by the initial worker. -/
def iconValue : IconOutcome → String
  | .resolved u => u
  | .failed => "DOWNLOAD_FAILED"

/-- Outcome of one artifact-resolution attempt in the retry scripts,
which first check whether the file already exists locally. -/
inductive IconOutcome2 where
  | already
  | resolved (url : String)
  | failed
deriving Repr, DecidableEq

/-- The value written at the icon's position by the retry scripts. -/
def icon2Value : IconOutcome2 → String
  | .already => "EXISTS"
  | .resolved u => u
  | .failed => "DOWNLOAD_FAILED"

/-- Embeds extract_all_pages_observations of 0.scrape: every icon on
every visited page appends exactly one value, a locator on success or the
DOWNLOAD_FAILED sentinel on failure, in page order. -/
def extract_all_pages_observations (pages : List (List IconOutcome)) : List String :=
  match pages with
  | [] => []
  | pg :: rest => pg.map iconValue ++ extract_all_pages_observations rest

/-- Embeds extract_all_pages_observations of 2a.rerun_failed_observations,
which adds the local-file EXISTS shortcut per icon. -/
def extract_all_pages_observations2 (pages : List (List IconOutcome2)) : List String :=
  match pages with
  | [] => []
  | pg :: rest => pg.map icon2Value ++ extract_all_pages_observations2 rest

/-- Navigation outcome for one item of the initial worker: success
exposes the summary region and the listing pages, failure carries the
repr of the raised exception. -/
inductive NavOutcome where
  | ok (senv : SummaryEnv) (pages : List (List IconOutcome))
  | err (msg : String)

/-- Navigation outcome for one item of the retry scripts. -/
inductive NavOutcome2 where
  | ok (senv : SummaryEnv) (pages : List (List IconOutcome2))
  | err (msg : String)

/-! ## The initial harvest worker (0.scrape) -/

/-- One input item: its global ordinal and application number. -/
structure Item where
  row_index : Nat
  application_number : String
deriving Repr, DecidableEq

/-- Embeds the record construction of one main-loop iteration of
0.scrape: the record starts with the default fields, then either the
error is recorded (navigation failure), the no-records flag is set, or
the crawler runs and its list is counted and semicolon-joined. -/
def processItem0 (wid : Nat) (it : Item) (nav : NavOutcome) : Record :=
  let base : Record := {
    worker_id := wid
    row_index := it.row_index
    application_number := it.application_number
    no_record_found := 0
    has_third_party_observation := false
    n_observation_letters := 0
    observation_urls := ""
    error := "" }
  match nav with
  | .err msg => { base with error := msg }
  | .ok senv pages =>
    if page_has_no_records senv then { base with no_record_found := 1 }
    else
      let urls := extract_all_pages_observations pages
      { base with
        n_observation_letters := urls.length
        has_third_party_observation := decide (0 < urls.length)
        observation_urls := joinSemi urls }

/-- Embeds load_done_rows: the row_index column of an existing ledger. -/
def load_done_rows (ledger : List Record) : List Nat :=
  ledger.map Record.row_index

/-- Embeds the main loop of 0.scrape over the worker's chunk: an item
whose row_index is already in the done set is skipped, every other item
is processed and its record appended. -/
def runPass0 (wid : Nat) (done : List Nat) (env : Nat → NavOutcome) :
    List Item → List Record
  | [] => []
  | it :: rest =>
    if done.contains it.row_index then runPass0 wid done env rest
    else processItem0 wid it (env it.row_index) :: runPass0 wid done env rest

/-! ## Bounded navigation retry (safe_goto of the retry scripts) -/

/-- Fixed attempt cap of safe_goto. -/
def GOTO_ATTEMPTS : Nat := 3

/-- Backoff base in seconds. -/
def BACKOFF_BASE_S : Nat := 6

/-- Observable trace of one safe_goto call: whether it returned
normally, how many goto attempts it made, and the sleeps it performed
between attempts, in order. -/
structure GotoTrace where
  success : Bool
  attempts : Nat
  sleeps : List Nat
deriving Repr, DecidableEq

/-- One step of safe_goto: attempt numbers count up from 1; a failure on
the final attempt re-raises without sleeping, an earlier failure sleeps
BACKOFF_BASE_S * attempt seconds and retries. -/
def safeGotoAux (ok : Nat → Bool) : Nat → Nat → GotoTrace
  | _, 0 => { success := false, attempts := 0, sleeps := [] }
  | attempt, r + 1 =>
    if ok attempt then { success := true, attempts := 1, sleeps := [] }
    else if r = 0 then { success := false, attempts := 1, sleeps := [] }
    else
      let t := safeGotoAux ok (attempt + 1) r
      { success := t.success
        attempts := t.attempts + 1
        sleeps := BACKOFF_BASE_S * attempt :: t.sleeps }

/-- Embeds safe_goto of the retry scripts: up to GOTO_ATTEMPTS attempts
starting at attempt 1. -/
def safe_goto (ok : Nat → Bool) : GotoTrace :=
  safeGotoAux ok 1 GOTO_ATTEMPTS

/-! ## The page-failure retry worker (2a.rerun_failed_observations) -/

/-- Embeds one main-loop iteration of 2a: navigate with safe_goto; if
every attempt fails the exception is recorded on an otherwise default
record; otherwise the item is classified and crawled exactly as in the
initial worker, with the EXISTS shortcut available per icon. -/
def processItem2a (wid : Nat) (it : Item) (ok : Nat → Bool) (msg : String)
    (senv : SummaryEnv) (pages : List (List IconOutcome2)) : Record :=
  let base : Record := {
    worker_id := wid
    row_index := it.row_index
    application_number := it.application_number
    no_record_found := 0
    has_third_party_observation := false
    n_observation_letters := 0
    observation_urls := ""
    error := "" }
  if (safe_goto ok).success then
    if page_has_no_records senv then { base with no_record_found := 1 }
    else
      let urls := extract_all_pages_observations2 pages
      { base with
        n_observation_letters := urls.length
        has_third_party_observation := decide (0 < urls.length)
        observation_urls := joinSemi urls }
  else { base with error := msg }

/-! ## The download-failure retry worker (2b.rerun_download_failures) -/

/-- One worklist row of the download-failure retry input, with the failed
position set already parsed from its comma-joined column. -/
structure DlTask where
  row_index : Nat
  worker_id : Nat
  application_number : String
  failed_positions : List Nat
  observation_urls : String
deriving Repr, DecidableEq

/-- Embeds the icon loop of crawl_and_redownload_failed_positions over
one page: the global position counter advances once per icon; a counter
at or beyond the known list length returns early from the whole crawl
(third component true); a position not in the failed set is left
untouched; a failed position is overwritten with the attempt's value. -/
def crawlIcons (failed : List Nat) :
    List IconOutcome2 → List String → Nat → List String × Nat × Bool
  | [], urls, k => (urls, k, false)
  | o :: rest, urls, k =>
    if urls.length ≤ k then (urls, k, true)
    else if failed.contains k then
      crawlIcons failed rest (urls.set k (icon2Value o)) (k + 1)
    else crawlIcons failed rest urls (k + 1)

/-- Embeds the page loop of crawl_and_redownload_failed_positions: pages
are crawled in order until the early return fires or the Next control is
exhausted (end of the visited-pages list). -/
def crawlPages (failed : List Nat) :
    List (List IconOutcome2) → List String → Nat → List String
  | [], urls, _ => urls
  | pg :: rest, urls, k =>
    match crawlIcons failed pg urls k with
    | (u, k2, early) => if early then u else crawlPages failed rest u k2

/-- Embeds crawl_and_redownload_failed_positions: a mutable copy of the
original list, crawled from global position 0. -/
def crawl_and_redownload_failed_positions
    (pages : List (List IconOutcome2)) (original : List String)
    (failed : List Nat) : List String :=
  crawlPages failed pages original 0

/-- Embeds one main-loop iteration of 2b: the record starts as a
write-through of the input row; rows with no failed positions or an empty
original list are written through before navigating; total navigation
failure records the exception on the write-through record; a no-records
listing sets the flag and keeps the original urls; otherwise the targeted
crawl replaces the urls and the count is recomputed from its result. -/
def processItem2b (t : DlTask) (ok : Nat → Bool) (msg : String)
    (senv : SummaryEnv) (pages : List (List IconOutcome2)) : Record :=
  let origList := parsePositions t.observation_urls
  let base : Record := {
    worker_id := t.worker_id
    row_index := t.row_index
    application_number := t.application_number
    no_record_found := 0
    has_third_party_observation := false
    n_observation_letters := origList.length
    observation_urls := t.observation_urls
    error := "" }
  if t.failed_positions = [] ∨ origList.length = 0 then base
  else if (safe_goto ok).success then
    if page_has_no_records senv then { base with no_record_found := 1 }
    else
      let updated := crawl_and_redownload_failed_positions pages origList
        t.failed_positions
      { base with
        n_observation_letters := updated.length
        has_third_party_observation := decide (0 < updated.length)
        observation_urls := joinSemi updated }
  else { base with error := msg }

/-- Per-task environment for one 2b pass: what navigation, summary reads
and icon outcomes an item would see, and the repr of the exception raised
when navigation fails. -/
structure DlEnv where
  ok : Nat → Bool
  msg : String
  senv : SummaryEnv
  pages : List (List IconOutcome2)

/-- Embeds the main loop of 2b, whose done set is loaded from the
existing output ledger and grown as rows are appended, so duplicate
worklist rows are skipped within a single invocation as well. -/
def runPass2b (done : List Nat) (env : Nat → DlEnv) :
    List DlTask → List Record
  | [] => []
  | t :: rest =>
    if done.contains t.row_index then runPass2b done env rest
    else
      processItem2b t (env t.row_index).ok (env t.row_index).msg
          (env t.row_index).senv (env t.row_index).pages
        :: runPass2b (t.row_index :: done) env rest

/-! ## The failure classifier (1.collect_failures) -/

/-- One row of the download-failure worklist file; the failed_positions
column is serialized as comma-joined decimal indices. -/
structure DlFailRow where
  row_index : Nat
  worker_id : Nat
  application_number : String
  failed_positions : List Nat
  observation_urls : String
deriving Repr, DecidableEq

/-- The page-level condition of the classifier: the stripped error text
is non-empty and contains the navigation-failure pattern. -/
def pageCond (e : Record) : Bool :=
  pyStrip e.error ≠ "" && containsSub "Page.goto" (pyStrip e.error)

/-- The download-level condition of the classifier: the stripped
serialized positions contain the DOWNLOAD_FAILED sentinel as a
substring. -/
def dlCond (e : Record) : Bool :=
  containsSub "DOWNLOAD_FAILED" (pyStrip e.observation_urls)

/-- The failed indices the classifier computes: positions of the split
whose token equals the sentinel exactly. -/
def failedIndicesOf (urls : String) : List Nat :=
  ((splitSemi urls).enum.filter (fun p => p.2 == "DOWNLOAD_FAILED")).map
    Prod.fst

/-- The download-worklist row built for one classified entry. -/
def mkDlRow (e : Record) : DlFailRow :=
  { row_index := e.row_index
    worker_id := e.worker_id
    application_number := e.application_number
    failed_positions := failedIndicesOf (pyStrip e.observation_urls)
    observation_urls := pyStrip e.observation_urls }

/-- Embeds the classification loop of 1.collect_failures over a completed
ledger: each row goes to the page list if its error matches the
navigation-failure pattern, otherwise to the download list if its
positions contain the sentinel, otherwise to neither. -/
def collect_failures : List Record → List Record × List DlFailRow
  | [] => ([], [])
  | e :: rest =>
    match collect_failures rest with
    | (p, d) =>
      if pageCond e then (e :: p, d)
      else if dlCond e then (p, mkDlRow e :: d)
      else (p, d)

/-! ## The reconciliation merge (3a.merge_outputs) -/

/-- A ledger dataset keyed by row_index, in file order. -/
abbrev DS := List (Nat × Record)

/-- The row_index keys of a dataset. -/
def dsKeys (ds : DS) : List Nat := ds.map Prod.fst

/-- Embeds drop_duplicates keeping the first occurrence per row_index. -/
def dropDupFirstAux (seen : List Nat) : DS → DS
  | [] => []
  | (i, r) :: rest =>
    if seen.contains i then dropDupFirstAux seen rest
    else (i, r) :: dropDupFirstAux (i :: seen) rest

/-- The base dataset of the merge: worker files concatenated, first
occurrence kept per row_index. -/
def drop_duplicates_first (ds : DS) : DS := dropDupFirstAux [] ds

/-- Embeds base.loc of a full-row assignment at a row_index label: an
existing row is replaced in place, a new label is appended at the end
(pandas setting-with-enlargement). -/
def setRowLoc (ds : DS) (i : Nat) (r : Record) : DS :=
  if (dsKeys ds).contains i then
    ds.map (fun p => if p.1 = i then (i, r) else p)
  else ds ++ [(i, r)]

/-- Embeds the download patch step at one row_index: a label absent from
the base is skipped, an existing row has only its observation_urls column
overwritten. -/
def patchUrlsLoc (ds : DS) (i : Nat) (urls : String) : DS :=
  if (dsKeys ds).contains i then
    ds.map (fun p =>
      if p.1 = i then (p.1, { p.2 with observation_urls := urls }) else p)
  else ds

/-- Embeds 3a.merge_outputs: concatenated worker outputs deduplicated by
first occurrence, then every page-retry row assigned as a full row, then
every download-retry row applied as a urls-only patch. -/
def merge_outputs (workers : List DS) (page_fix dl_fix : DS) : DS :=
  let base := drop_duplicates_first workers.flatten
  let base2 := page_fix.foldl (fun d p => setRowLoc d p.1 p.2) base
  dl_fix.foldl (fun d p => patchUrlsLoc d p.1 p.2.observation_urls) base2

/-- Row lookup by key, first match, as pandas label indexing reads. -/
def lookupRow : DS → Nat → Option Record
  | [], _ => none
  | p :: rest, i => if p.1 = i then some p.2 else lookupRow rest i

/-! ## The work partitioner (shard computation of 0.scrape and 3c) -/

/-- Embeds the shard computation: chunk is integer division, the slice
starts at w * chunk and ends at (w + 1) * chunk except for the last
worker, which ends at the total.  The result depends on nothing but
(T, N, w), so re-invocation with the same arguments yields the same
slice. -/
def shard_bounds (T N w : Nat) : Nat × Nat :=
  let chunk := T / N
  (w * chunk, if w = N - 1 then T else (w + 1) * chunk)

/-- The shard as the set of item ordinals it covers. -/
def shard (T N w : Nat) : Finset Nat :=
  Finset.Ico (shard_bounds T N w).1 (shard_bounds T N w).2

/-! ## Properties of the targeted re-fetch crawl -/

theorem crawlIcons_length (failed : List Nat) (icons : List IconOutcome2)
    (urls : List String) (k : Nat) :
    (crawlIcons failed icons urls k).1.length = urls.length := by
  induction icons generalizing urls k with
  | nil => rfl
  | cons o rest ih =>
    simp only [crawlIcons]
    by_cases h1 : urls.length ≤ k
    · rw [if_pos h1]
    · rw [if_neg h1]
      by_cases h2 : failed.contains k = true
      · rw [if_pos h2, ih, List.length_set]
      · rw [if_neg h2, ih]

theorem crawlIcons_frame (failed : List Nat) (icons : List IconOutcome2)
    (urls : List String) (k i : Nat) (hi : i ∉ failed) :
    (crawlIcons failed icons urls k).1[i]? = urls[i]? := by
  induction icons generalizing urls k with
  | nil => rfl
  | cons o rest ih =>
    simp only [crawlIcons]
    by_cases h1 : urls.length ≤ k
    · rw [if_pos h1]
    · rw [if_neg h1]
      by_cases h2 : failed.contains k = true
      · rw [if_pos h2, ih]
        have hik : k ≠ i := by
          intro h
          subst h
          exact hi (by simpa using h2)
        exact List.getElem?_set_ne hik
      · rw [if_neg h2, ih]

theorem crawlPages_length (failed : List Nat)
    (pages : List (List IconOutcome2)) (urls : List String) (k : Nat) :
    (crawlPages failed pages urls k).length = urls.length := by
  induction pages generalizing urls k with
  | nil => rfl
  | cons pg rest ih =>
    simp only [crawlPages]
    by_cases h : (crawlIcons failed pg urls k).2.2 = true
    · rw [if_pos h, crawlIcons_length]
    · rw [if_neg h, ih, crawlIcons_length]

theorem crawlPages_frame (failed : List Nat)
    (pages : List (List IconOutcome2)) (urls : List String) (k i : Nat)
    (hi : i ∉ failed) :
    (crawlPages failed pages urls k)[i]? = urls[i]? := by
  induction pages generalizing urls k with
  | nil => rfl
  | cons pg rest ih =>
    simp only [crawlPages]
    by_cases h : (crawlIcons failed pg urls k).2.2 = true
    · rw [if_pos h, crawlIcons_frame failed pg urls k i hi]
    · rw [if_neg h, ih, crawlIcons_frame failed pg urls k i hi]

theorem crawlIcons_values (failed : List Nat) (icons : List IconOutcome2)
    (urls : List String) (k i : Nat) :
    (crawlIcons failed icons urls k).1[i]? = urls[i]?
      ∨ (i ∈ failed ∧ ∃ o ∈ icons,
          (crawlIcons failed icons urls k).1[i]? = some (icon2Value o)) := by
  induction icons generalizing urls k with
  | nil => exact Or.inl rfl
  | cons o rest ih =>
    simp only [crawlIcons]
    by_cases h1 : urls.length ≤ k
    · rw [if_pos h1]
      exact Or.inl rfl
    · rw [if_neg h1]
      by_cases h2 : failed.contains k = true
      · rw [if_pos h2]
        rcases ih (urls.set k (icon2Value o)) (k + 1) with hrec | ⟨hmem, o2, ho2, hval⟩
        · by_cases hik : i = k
          · subst hik
            refine Or.inr ⟨by simpa using h2, o, by simp, ?_⟩
            rw [hrec, List.getElem?_set_self (by omega)]
          · left
            rw [hrec, List.getElem?_set_ne (Ne.symm hik)]
        · exact Or.inr ⟨hmem, o2, by simp [ho2], hval⟩
      · rw [if_neg h2]
        rcases ih urls (k + 1) with hrec | ⟨hmem, o2, ho2, hval⟩
        · exact Or.inl hrec
        · exact Or.inr ⟨hmem, o2, by simp [ho2], hval⟩

theorem crawlPages_values (failed : List Nat)
    (pages : List (List IconOutcome2)) (urls : List String) (k i : Nat) :
    (crawlPages failed pages urls k)[i]? = urls[i]?
      ∨ (i ∈ failed ∧ ∃ o ∈ pages.flatten,
          (crawlPages failed pages urls k)[i]? = some (icon2Value o)) := by
  induction pages generalizing urls k with
  | nil => exact Or.inl rfl
  | cons pg rest ih =>
    simp only [crawlPages]
    by_cases h : (crawlIcons failed pg urls k).2.2 = true
    · rw [if_pos h]
      rcases crawlIcons_values failed pg urls k i with hv | ⟨hmem, o, ho, hval⟩
      · exact Or.inl hv
      · exact Or.inr ⟨hmem, o, by simp [ho], hval⟩
    · rw [if_neg h]
      rcases ih (crawlIcons failed pg urls k).1 (crawlIcons failed pg urls k).2.1
          with hv | ⟨hmem, o, ho, hval⟩
      · rcases crawlIcons_values failed pg urls k i with hv2 | ⟨hmem2, o2, ho2, hval2⟩
        · exact Or.inl (hv.trans hv2)
        · exact Or.inr ⟨hmem2, o2, by simp [ho2], hv.trans hval2⟩
      · exact Or.inr ⟨hmem, o, by simp [ho], hval⟩

/-! ## Properties of the reconciliation merge -/

theorem lookupRow_map_replace_mem (ds : DS) (i : Nat) (r : Record)
    (h : i ∈ dsKeys ds) :
    lookupRow (ds.map (fun p => if p.1 = i then (i, r) else p)) i = some r := by
  induction ds with
  | nil => simp [dsKeys] at h
  | cons p rest ih =>
    by_cases hp : p.1 = i
    · simp [lookupRow, hp]
    · have : i ∈ dsKeys rest := by
        rcases by simpa [dsKeys] using h with h1 | h1
        · exact absurd h1.symm hp
        · simpa [dsKeys] using h1
      simp only [List.map_cons, if_neg hp]
      rw [lookupRow, if_neg hp]
      exact ih this

theorem lookupRow_map_replace_ne (ds : DS) (i j : Nat) (r : Record)
    (hij : j ≠ i) :
    lookupRow (ds.map (fun p => if p.1 = i then (i, r) else p)) j
      = lookupRow ds j := by
  induction ds with
  | nil => rfl
  | cons p rest ih =>
    by_cases hp : p.1 = i
    · simp only [List.map_cons, if_pos hp]
      rw [lookupRow, if_neg (fun h => hij h.symm), lookupRow,
        if_neg (fun h => hij (hp ▸ h).symm)]
      exact ih
    · simp only [List.map_cons, if_neg hp]
      by_cases hpj : p.1 = j
      · rw [lookupRow, if_pos hpj, lookupRow, if_pos hpj]
      · rw [lookupRow, if_neg hpj, lookupRow, if_neg hpj]
        exact ih

theorem lookupRow_append_single_self (ds : DS) (i : Nat) (r : Record)
    (h : i ∉ dsKeys ds) : lookupRow (ds ++ [(i, r)]) i = some r := by
  induction ds with
  | nil => simp [lookupRow]
  | cons p rest ih =>
    have hp : p.1 ≠ i := fun hc => h (by simp [dsKeys, hc])
    rw [List.cons_append, lookupRow, if_neg hp]
    exact ih (fun hm => h (by simp [dsKeys] at hm ⊢; exact Or.inr hm))

theorem lookupRow_append_single_ne (ds : DS) (i j : Nat) (r : Record)
    (hij : j ≠ i) : lookupRow (ds ++ [(i, r)]) j = lookupRow ds j := by
  induction ds with
  | nil =>
    simp only [List.nil_append, lookupRow]
    rw [if_neg (fun h => hij h.symm)]
  | cons p rest ih =>
    by_cases hpj : p.1 = j
    · rw [List.cons_append, lookupRow, if_pos hpj, lookupRow, if_pos hpj]
    · rw [List.cons_append, lookupRow, if_neg hpj, lookupRow, if_neg hpj]
      exact ih

theorem lookupRow_setRowLoc_self (ds : DS) (i : Nat) (r : Record) :
    lookupRow (setRowLoc ds i r) i = some r := by
  unfold setRowLoc
  by_cases h : (dsKeys ds).contains i = true
  · rw [if_pos h]
    exact lookupRow_map_replace_mem ds i r (by simpa using h)
  · rw [if_neg h]
    exact lookupRow_append_single_self ds i r (fun hm => h (by simpa using hm))

theorem lookupRow_setRowLoc_ne (ds : DS) (i j : Nat) (r : Record)
    (hij : j ≠ i) : lookupRow (setRowLoc ds i r) j = lookupRow ds j := by
  unfold setRowLoc
  by_cases h : (dsKeys ds).contains i = true
  · rw [if_pos h]
    exact lookupRow_map_replace_ne ds i j r hij
  · rw [if_neg h]
    exact lookupRow_append_single_ne ds i j r hij

theorem lookupRow_map_patch_self (ds : DS) (i : Nat) (u : String) :
    lookupRow (ds.map (fun p =>
        if p.1 = i then (p.1, { p.2 with observation_urls := u }) else p)) i
      = (lookupRow ds i).map (fun r => { r with observation_urls := u }) := by
  induction ds with
  | nil => rfl
  | cons p rest ih =>
    by_cases hp : p.1 = i
    · simp only [List.map_cons, if_pos hp]
      rw [lookupRow, if_pos hp, lookupRow, if_pos hp]
      rfl
    · simp only [List.map_cons, if_neg hp]
      rw [lookupRow, if_neg hp, lookupRow, if_neg hp]
      exact ih

theorem lookupRow_map_patch_ne (ds : DS) (i j : Nat) (u : String)
    (hij : j ≠ i) :
    lookupRow (ds.map (fun p =>
        if p.1 = i then (p.1, { p.2 with observation_urls := u }) else p)) j
      = lookupRow ds j := by
  induction ds with
  | nil => rfl
  | cons p rest ih =>
    by_cases hp : p.1 = i
    · have hpj : ¬p.1 = j := fun h => hij (h ▸ hp)
      simp only [List.map_cons, if_pos hp]
      rw [lookupRow, if_neg (by simpa [hp] using hpj), lookupRow, if_neg hpj]
      exact ih
    · simp only [List.map_cons, if_neg hp]
      by_cases hpj : p.1 = j
      · rw [lookupRow, if_pos hpj, lookupRow, if_pos hpj]
      · rw [lookupRow, if_neg hpj, lookupRow, if_neg hpj]
        exact ih

theorem lookupRow_patchUrlsLoc_self (ds : DS) (i : Nat) (u : String) :
    lookupRow (patchUrlsLoc ds i u) i
      = (lookupRow ds i).map (fun r => { r with observation_urls := u }) := by
  unfold patchUrlsLoc
  by_cases h : (dsKeys ds).contains i = true
  · rw [if_pos h]
    exact lookupRow_map_patch_self ds i u
  · rw [if_neg h]
    have : lookupRow ds i = none := by
      have hmem : i ∉ dsKeys ds := fun hm => h (by simpa using hm)
      induction ds with
      | nil => rfl
      | cons p rest ih =>
        rw [lookupRow, if_neg (fun hc => hmem (by simp [dsKeys, hc]))]
        exact ih (fun hm => h (by simp [dsKeys] at hm ⊢; exact Or.inr hm))
          (fun hm => hmem (by simp [dsKeys] at hm ⊢; exact Or.inr hm))
    simp [this]

theorem lookupRow_patchUrlsLoc_ne (ds : DS) (i j : Nat) (u : String)
    (hij : j ≠ i) : lookupRow (patchUrlsLoc ds i u) j = lookupRow ds j := by
  unfold patchUrlsLoc
  by_cases h : (dsKeys ds).contains i = true
  · rw [if_pos h]
    exact lookupRow_map_patch_ne ds i j u hij
  · rw [if_neg h]

theorem lookupRow_foldl_setRow_notmem (pf : DS) (d : DS) (j : Nat)
    (hj : j ∉ dsKeys pf) :
    lookupRow (pf.foldl (fun d p => setRowLoc d p.1 p.2) d) j
      = lookupRow d j := by
  induction pf generalizing d with
  | nil => rfl
  | cons p rest ih =>
    have hne : j ≠ p.1 := fun h => hj (by simp [dsKeys, h])
    rw [List.foldl_cons, ih _ (fun hm => hj (by simp [dsKeys] at hm ⊢; exact Or.inr hm)),
      lookupRow_setRowLoc_ne _ _ _ _ hne]

theorem lookupRow_foldl_setRow_mem (pf : DS) (i : Nat) (r : Record) :
    ∀ d : DS, (dsKeys pf).Nodup → (i, r) ∈ pf →
      lookupRow (pf.foldl (fun d p => setRowLoc d p.1 p.2) d) i = some r := by
  induction pf with
  | nil =>
    intro d _ hmem
    simp at hmem
  | cons p rest ih =>
    intro d hnd hmem
    have hnd2 : p.1 ∉ dsKeys rest ∧ (dsKeys rest).Nodup := by
      have h := hnd
      simp only [dsKeys, List.map_cons] at h
      exact List.nodup_cons.mp h
    rcases List.mem_cons.mp hmem with heq | hmem2
    · have hp1 : p.1 = i := by rw [← heq]
      have hnotin : i ∉ dsKeys rest := hp1 ▸ hnd2.1
      rw [List.foldl_cons, lookupRow_foldl_setRow_notmem rest _ i hnotin, ← heq]
      exact lookupRow_setRowLoc_self d i r
    · rw [List.foldl_cons]
      exact ih _ hnd2.2 hmem2

theorem lookupRow_foldl_patch_notmem (df : DS) (d : DS) (j : Nat)
    (hj : j ∉ dsKeys df) :
    lookupRow (df.foldl (fun d p => patchUrlsLoc d p.1 p.2.observation_urls) d) j
      = lookupRow d j := by
  induction df generalizing d with
  | nil => rfl
  | cons p rest ih =>
    have hne : j ≠ p.1 := fun h => hj (by simp [dsKeys, h])
    rw [List.foldl_cons, ih _ (fun hm => hj (by simp [dsKeys] at hm ⊢; exact Or.inr hm)),
      lookupRow_patchUrlsLoc_ne _ _ _ _ hne]

theorem lookupRow_foldl_patch_mem (df : DS) (i : Nat) (r : Record) :
    ∀ d : DS, (dsKeys df).Nodup → (i, r) ∈ df →
      lookupRow (df.foldl (fun d p => patchUrlsLoc d p.1 p.2.observation_urls) d) i
        = (lookupRow d i).map
            (fun rb => { rb with observation_urls := r.observation_urls }) := by
  induction df with
  | nil =>
    intro d _ hmem
    simp at hmem
  | cons p rest ih =>
    intro d hnd hmem
    have hnd2 : p.1 ∉ dsKeys rest ∧ (dsKeys rest).Nodup := by
      have h := hnd
      simp only [dsKeys, List.map_cons] at h
      exact List.nodup_cons.mp h
    rcases List.mem_cons.mp hmem with heq | hmem2
    · have hp1 : p.1 = i := by rw [← heq]
      have hnotin : i ∉ dsKeys rest := hp1 ▸ hnd2.1
      rw [List.foldl_cons, lookupRow_foldl_patch_notmem rest _ i hnotin, ← heq]
      exact lookupRow_patchUrlsLoc_self d i r.observation_urls
    · have hi_rest : i ∈ dsKeys rest := by
        simp only [dsKeys, List.mem_map]
        exact ⟨(i, r), hmem2, rfl⟩
      have hpi : i ≠ p.1 := fun h => hnd2.1 (h ▸ hi_rest)
      rw [List.foldl_cons, ih _ hnd2.2 hmem2, lookupRow_patchUrlsLoc_ne _ _ _ _ hpi]

theorem dsKeys_map_replace (ds : DS) (i : Nat) (r : Record) :
    dsKeys (ds.map (fun p => if p.1 = i then (i, r) else p)) = dsKeys ds := by
  induction ds with
  | nil => rfl
  | cons p rest ih =>
    by_cases hp : p.1 = i
    · simp only [List.map_cons, if_pos hp, dsKeys] at *
      simp [hp, ih]
    · simp only [List.map_cons, if_neg hp, dsKeys] at *
      simp [ih]

theorem dsKeys_setRowLoc (ds : DS) (i : Nat) (r : Record) (j : Nat) :
    j ∈ dsKeys (setRowLoc ds i r) ↔ j ∈ dsKeys ds ∨ j = i := by
  unfold setRowLoc
  by_cases h : (dsKeys ds).contains i = true
  · rw [if_pos h, dsKeys_map_replace]
    have hi : i ∈ dsKeys ds := by simpa using h
    constructor
    · exact Or.inl
    · rintro (hj | rfl)
      · exact hj
      · exact hi
  · rw [if_neg h]
    simp [dsKeys]

theorem dsKeys_map_patch (ds : DS) (i : Nat) (u : String) :
    dsKeys (ds.map (fun p =>
      if p.1 = i then (p.1, { p.2 with observation_urls := u }) else p))
      = dsKeys ds := by
  induction ds with
  | nil => rfl
  | cons p rest ih =>
    by_cases hp : p.1 = i
    · simp only [List.map_cons, if_pos hp, dsKeys] at *
      simp [ih]
    · simp only [List.map_cons, if_neg hp, dsKeys] at *
      simp [ih]

theorem dsKeys_patchUrlsLoc (ds : DS) (i : Nat) (u : String) :
    dsKeys (patchUrlsLoc ds i u) = dsKeys ds := by
  unfold patchUrlsLoc
  by_cases h : (dsKeys ds).contains i = true
  · rw [if_pos h, dsKeys_map_patch]
  · rw [if_neg h]

theorem dsKeys_foldl_setRow (pf : DS) :
    ∀ d : DS, ∀ j : Nat,
      (j ∈ dsKeys (pf.foldl (fun d p => setRowLoc d p.1 p.2) d)
        ↔ j ∈ dsKeys d ∨ j ∈ dsKeys pf) := by
  induction pf with
  | nil => simp [dsKeys]
  | cons p rest ih =>
    intro d j
    rw [List.foldl_cons, ih (setRowLoc d p.1 p.2) j, dsKeys_setRowLoc]
    simp only [dsKeys, List.map_cons, List.mem_cons]
    tauto

theorem dsKeys_foldl_patch (df : DS) :
    ∀ d : DS,
      dsKeys (df.foldl (fun d p => patchUrlsLoc d p.1 p.2.observation_urls) d)
        = dsKeys d := by
  induction df with
  | nil => intro d; rfl
  | cons p rest ih =>
    intro d
    rw [List.foldl_cons, ih, dsKeys_patchUrlsLoc]

theorem dsKeys_dropDupFirstAux (ds : DS) :
    ∀ seen : List Nat, ∀ j : Nat,
      (j ∈ dsKeys (dropDupFirstAux seen ds) ↔ j ∈ dsKeys ds ∧ j ∉ seen) := by
  induction ds with
  | nil => simp [dropDupFirstAux, dsKeys]
  | cons p rest ih =>
    intro seen j
    by_cases h : seen.contains p.1 = true
    · rw [dropDupFirstAux, if_pos h, ih seen j]
      simp only [dsKeys, List.map_cons, List.mem_cons]
      constructor
      · exact fun hj => ⟨Or.inr hj.1, hj.2⟩
      · rintro ⟨hj | hj, hs⟩
        · exact absurd (hj ▸ (by simpa using h)) hs
        · exact ⟨hj, hs⟩
    · rw [dropDupFirstAux, if_neg h]
      simp only [dsKeys, List.map_cons, List.mem_cons]
      rw [show List.map Prod.fst (dropDupFirstAux (p.1 :: seen) rest)
          = dsKeys (dropDupFirstAux (p.1 :: seen) rest) from rfl, ih (p.1 :: seen) j]
      simp only [List.mem_cons]
      constructor
      · rintro (rfl | ⟨hj, hns⟩)
        · exact ⟨Or.inl rfl, fun hs => h (by simpa using hs)⟩
        · exact ⟨Or.inr hj, fun hs => hns (Or.inr hs)⟩
      · rintro ⟨hj | hj, hs⟩
        · exact Or.inl hj
        · by_cases hpj : j = p.1
          · exact Or.inl hpj
          · exact Or.inr ⟨hj, fun hin => by
              rcases hin with hin | hin
              · exact hpj hin
              · exact hs hin⟩

/-- Deduplication keeps exactly the keys of its input. -/
theorem dsKeys_drop_duplicates_first (ds : DS) (j : Nat) :
    j ∈ dsKeys (drop_duplicates_first ds) ↔ j ∈ dsKeys ds := by
  rw [drop_duplicates_first, dsKeys_dropDupFirstAux ds [] j]
  simp

/-! ## Properties of the pass loops -/

theorem processItem0_row_index (wid : Nat) (it : Item) (nav : NavOutcome) :
    (processItem0 wid it nav).row_index = it.row_index := by
  cases nav with
  | err msg => rfl
  | ok senv pages =>
    simp only [processItem0]
    by_cases h : page_has_no_records senv = true
    · rw [if_pos h]
    · rw [if_neg h]

theorem processItem2b_row_index (t : DlTask) (ok : Nat → Bool) (msg : String)
    (senv : SummaryEnv) (pages : List (List IconOutcome2)) :
    (processItem2b t ok msg senv pages).row_index = t.row_index := by
  simp only [processItem2b]
  by_cases h1 : t.failed_positions = [] ∨ (parsePositions t.observation_urls).length = 0
  · rw [if_pos h1]
  · rw [if_neg h1]
    by_cases h2 : (safe_goto ok).success = true
    · rw [if_pos h2]
      by_cases h3 : page_has_no_records senv = true
      · rw [if_pos h3]
      · rw [if_neg h3]
    · rw [if_neg h2]

/-- The row indices of a chunk of input items. -/
def itemKeys (chunk : List Item) : List Nat := chunk.map Item.row_index

theorem itemKeys_cons (it : Item) (rest : List Item) :
    itemKeys (it :: rest) = it.row_index :: itemKeys rest := rfl

/-- The row indices of a download-retry worklist. -/
def taskKeys (ts : List DlTask) : List Nat := ts.map DlTask.row_index

theorem taskKeys_cons (t : DlTask) (rest : List DlTask) :
    taskKeys (t :: rest) = t.row_index :: taskKeys rest := rfl

theorem runPass0_countP (wid : Nat) (done : List Nat) (env : Nat → NavOutcome)
    (i : Nat) :
    ∀ chunk : List Item, (itemKeys chunk).Nodup →
      (runPass0 wid done env chunk).countP (fun r => r.row_index == i)
        = if i ∈ itemKeys chunk ∧ i ∉ done then 1 else 0 := by
  intro chunk
  induction chunk with
  | nil =>
    intro _
    simp [runPass0, itemKeys]
  | cons it rest ih =>
    intro hnd
    rw [itemKeys_cons] at hnd
    have hnd2 := List.nodup_cons.mp hnd
    simp only [runPass0]
    by_cases hdone : done.contains it.row_index = true
    · rw [if_pos hdone, ih hnd2.2]
      have hiff : (i ∈ itemKeys rest ∧ i ∉ done)
          ↔ (i ∈ itemKeys (it :: rest) ∧ i ∉ done) := by
        rw [itemKeys_cons]
        constructor
        · rintro ⟨hm, hd⟩
          exact ⟨List.mem_cons.mpr (Or.inr hm), hd⟩
        · rintro ⟨hm, hd⟩
          rcases List.mem_cons.mp hm with rfl | hm2
          · exact absurd (by simpa using hdone) hd
          · exact ⟨hm2, hd⟩
      rw [if_congr hiff rfl rfl]
    · rw [if_neg hdone, List.countP_cons, ih hnd2.2]
      by_cases hi : i = it.row_index
      · have hphead : ((processItem0 wid it (env it.row_index)).row_index == i)
            = true := by
          rw [processItem0_row_index]
          exact beq_iff_eq.mpr hi.symm
        have hnr : i ∉ itemKeys rest := hi ▸ hnd2.1
        have hnd3 : i ∉ done := fun h => hdone (by simpa [hi] using h)
        have hmem : i ∈ itemKeys (it :: rest) ∧ i ∉ done := by
          refine ⟨?_, hnd3⟩
          rw [itemKeys_cons]
          exact List.mem_cons.mpr (Or.inl hi)
        rw [if_neg (fun hc : _ ∧ _ => hnr hc.1), hphead]
        simp only [if_pos hmem]
        simp
      · have hphead : ((processItem0 wid it (env it.row_index)).row_index == i)
            = false := by
          rw [processItem0_row_index]
          exact beq_eq_false_iff_ne.mpr (fun h => hi h.symm)
        have hiff : (i ∈ itemKeys rest ∧ i ∉ done)
            ↔ (i ∈ itemKeys (it :: rest) ∧ i ∉ done) := by
          rw [itemKeys_cons]
          constructor
          · rintro ⟨hm, hd⟩
            exact ⟨List.mem_cons.mpr (Or.inr hm), hd⟩
          · rintro ⟨hm, hd⟩
            rcases List.mem_cons.mp hm with h2 | hm2
            · exact absurd h2 hi
            · exact ⟨hm2, hd⟩
        rw [hphead, if_congr hiff rfl rfl]
        simp

theorem runPass2b_countP (env : Nat → DlEnv) (i : Nat) :
    ∀ ts : List DlTask, ∀ done : List Nat,
      (runPass2b done env ts).countP (fun r => r.row_index == i)
        = if i ∈ taskKeys ts ∧ i ∉ done then 1 else 0 := by
  intro ts
  induction ts with
  | nil =>
    intro done
    simp [runPass2b, taskKeys]
  | cons t rest ih =>
    intro done
    simp only [runPass2b]
    by_cases hdone : done.contains t.row_index = true
    · rw [if_pos hdone, ih done]
      have hiff : (i ∈ taskKeys rest ∧ i ∉ done)
          ↔ (i ∈ taskKeys (t :: rest) ∧ i ∉ done) := by
        rw [taskKeys_cons]
        constructor
        · rintro ⟨hm, hd⟩
          exact ⟨List.mem_cons.mpr (Or.inr hm), hd⟩
        · rintro ⟨hm, hd⟩
          rcases List.mem_cons.mp hm with rfl | hm2
          · exact absurd (by simpa using hdone) hd
          · exact ⟨hm2, hd⟩
      rw [if_congr hiff rfl rfl]
    · rw [if_neg hdone, List.countP_cons, ih (t.row_index :: done)]
      by_cases hi : i = t.row_index
      · have hphead : ((processItem2b t (env t.row_index).ok (env t.row_index).msg
            (env t.row_index).senv (env t.row_index).pages).row_index == i)
            = true := by
          rw [processItem2b_row_index]
          exact beq_iff_eq.mpr hi.symm
        have hnd3 : i ∉ done := fun h => hdone (by simpa [hi] using h)
        have hmem : i ∈ taskKeys (t :: rest) ∧ i ∉ done := by
          refine ⟨?_, hnd3⟩
          rw [taskKeys_cons]
          exact List.mem_cons.mpr (Or.inl hi)
        rw [if_neg (fun hc : _ ∈ taskKeys rest ∧ i ∉ t.row_index :: done =>
          hc.2 (by simp [hi])), hphead]
        simp only [if_pos hmem]
        simp
      · have hphead : ((processItem2b t (env t.row_index).ok (env t.row_index).msg
            (env t.row_index).senv (env t.row_index).pages).row_index == i)
            = false := by
          rw [processItem2b_row_index]
          exact beq_eq_false_iff_ne.mpr (fun h => hi h.symm)
        have hiff : (i ∈ taskKeys rest ∧ i ∉ t.row_index :: done)
            ↔ (i ∈ taskKeys (t :: rest) ∧ i ∉ done) := by
          rw [taskKeys_cons]
          constructor
          · rintro ⟨hm, hd⟩
            exact ⟨List.mem_cons.mpr (Or.inr hm),
              fun h => hd (List.mem_cons.mpr (Or.inr h))⟩
          · rintro ⟨hm, hd⟩
            rcases List.mem_cons.mp hm with h2 | hm2
            · exact absurd h2 hi
            · refine ⟨hm2, fun h => ?_⟩
              rcases List.mem_cons.mp h with h3 | h3
              · exact hi h3
              · exact hd h3
        rw [hphead, if_congr hiff rfl rfl]
        simp

/-! ## Characterization of the failure classifier -/

theorem collect_failures_eq (L : List Record) :
    collect_failures L
      = (L.filter pageCond,
         (L.filter (fun e => !pageCond e && dlCond e)).map mkDlRow) := by
  induction L with
  | nil => rfl
  | cons e rest ih =>
    simp only [collect_failures, ih]
    by_cases h1 : pageCond e = true
    · simp [List.filter_cons, h1]
    · by_cases h2 : dlCond e = true
      · simp [List.filter_cons, h1, h2]
      · simp [List.filter_cons, h1, h2]

/-! ## Properties of the work partitioner -/

theorem shard_disjoint_of_lt (T N w1 w2 : Nat) (h2 : w2 < N) (hlt : w1 < w2) :
    Disjoint (shard T N w1) (shard T N w2) := by
  have hw1 : w1 ≠ N - 1 := by omega
  rw [Finset.disjoint_left]
  intro x hx hx2
  simp only [shard, shard_bounds, Finset.mem_Ico] at hx hx2
  rw [if_neg hw1] at hx
  have hend : (w1 + 1) * (T / N) ≤ w2 * (T / N) :=
    Nat.mul_le_mul_right _ (by omega)
  have hxlt : x < w2 * (T / N) := lt_of_lt_of_le hx.2 hend
  exact absurd hx2.1 (by omega)

theorem shard_disjoint (T N w1 w2 : Nat) (h1 : w1 < N) (h2 : w2 < N)
    (hne : w1 ≠ w2) : Disjoint (shard T N w1) (shard T N w2) := by
  rcases Nat.lt_or_ge w1 w2 with h | h
  · exact shard_disjoint_of_lt T N w1 w2 h2 h
  · exact (shard_disjoint_of_lt T N w2 w1 h1 (by omega)).symm

theorem shard_biUnion (T N : Nat) (hN : 1 ≤ N) :
    (Finset.range N).biUnion (fun w => shard T N w) = Finset.range T := by
  ext i
  simp only [Finset.mem_biUnion, Finset.mem_range, shard, shard_bounds,
    Finset.mem_Ico]
  constructor
  · rintro ⟨w, hw, hlo, hhi⟩
    by_cases hwl : w = N - 1
    · rw [if_pos hwl] at hhi
      exact hhi
    · rw [if_neg hwl] at hhi
      have h1 : (w + 1) * (T / N) ≤ N * (T / N) :=
        Nat.mul_le_mul_right _ (by omega)
      have h2 : N * (T / N) ≤ T := by
        rw [Nat.mul_comm]
        exact Nat.div_mul_le_self T N
      omega
  · intro hi
    by_cases hc : T / N = 0
    · refine ⟨N - 1, by omega, ?_, ?_⟩
      · simp [hc]
      · rw [if_pos rfl]
        exact hi
    · have hcpos : 0 < T / N := Nat.pos_of_ne_zero hc
      by_cases hbig : N - 1 ≤ i / (T / N)
      · refine ⟨N - 1, by omega, ?_, ?_⟩
        · calc (N - 1) * (T / N) ≤ i / (T / N) * (T / N) :=
              Nat.mul_le_mul_right _ hbig
            _ ≤ i := Nat.div_mul_le_self i (T / N)
        · rw [if_pos rfl]
          exact hi
      · refine ⟨i / (T / N), by omega, Nat.div_mul_le_self i (T / N), ?_⟩
        rw [if_neg (by omega)]
        have h1 := Nat.div_add_mod i (T / N)
        have h2 := Nat.mod_lt i hcpos
        calc i = T / N * (i / (T / N)) + i % (T / N) := h1.symm
          _ < T / N * (i / (T / N)) + T / N := by omega
          _ = (i / (T / N) + 1) * (T / N) := by ring

/-! ## Navigation attempt counting and locator well-formedness -/

/-- Embeds the navigation step of one 0.scrape main-loop iteration:
page.goto is called exactly once inside the try block, either succeeding
or raising.  The second component counts the goto calls made for the
item. -/
def navigate0 (ok : Nat → Bool) (senv : SummaryEnv)
    (pages : List (List IconOutcome)) (msg : String) : NavOutcome × Nat :=
  if ok 1 then (NavOutcome.ok senv pages, 1) else (NavOutcome.err msg, 1)

/-- A well-formed locator value: non-empty and semicolon-free, so the
semicolon-joined serialization of a position list is lossless.  Both
sentinels satisfy this, and portal document locators are absolute
https addresses, which contain no semicolon. -/
def SemiFree (s : String) : Prop := s ≠ "" ∧ ';' ∉ s.data

instance : DecidablePred SemiFree := fun s =>
  decidable_of_iff (s ≠ "" ∧ ';' ∉ s.data) Iff.rfl

theorem parse_join_length (l : List String) (h : ∀ t ∈ l, SemiFree t) :
    (parsePositions (joinSemi l)).length = l.length := by
  rcases List.eq_nil_or_concat l with rfl | _
  · simp [joinSemi, parsePositions]
  · rw [parsePositions_joinSemi l (fun t ht => (h t ht).2)
      (fun heq => (h "" (by simp [heq])).1 rfl)]

theorem parsePositions_no_semi (s : String) :
    ∀ t ∈ parsePositions s, ';' ∉ t.data := by
  unfold parsePositions
  by_cases hs : s = ""
  · simp [hs]
  · rw [if_neg hs]
    exact splitSemi_no_semi s

/-- The initial worker's crawler appends exactly one value per icon, in
page order. -/
theorem extract_all_pages_observations_eq (pages : List (List IconOutcome)) :
    extract_all_pages_observations pages = pages.flatten.map iconValue := by
  induction pages with
  | nil => rfl
  | cons pg rest ih =>
    simp [extract_all_pages_observations, ih]

/-- The retry crawler appends exactly one value per icon, in page
order. -/
theorem extract_all_pages_observations2_eq (pages : List (List IconOutcome2)) :
    extract_all_pages_observations2 pages = pages.flatten.map icon2Value := by
  induction pages with
  | nil => rfl
  | cons pg rest ih =>
    simp [extract_all_pages_observations2, ih]

/-- The targeted crawl's output serializes and re-parses losslessly:
its tokens are semicolon-free (original tokens come from a split, new
tokens are well-formed locators or sentinels) and it is never the lone
empty token. -/
theorem crawl_output_parse (pages : List (List IconOutcome2))
    (origUrls : List String) (failed : List Nat)
    (horig : ∀ t ∈ origUrls, ';' ∉ t.data) (hne : origUrls ≠ [""])
    (henv : ∀ o ∈ pages.flatten, SemiFree (icon2Value o)) :
    parsePositions (joinSemi
        (crawl_and_redownload_failed_positions pages origUrls failed))
      = crawl_and_redownload_failed_positions pages origUrls failed := by
  apply parsePositions_joinSemi
  · intro t ht
    rcases List.mem_iff_getElem?.mp ht with ⟨i, hi⟩
    rcases crawlPages_values failed pages origUrls 0 i with hv | ⟨_, o, ho, hval⟩
    · rw [crawl_and_redownload_failed_positions] at hi
      rw [hi] at hv
      exact horig t (List.getElem?_mem hv.symm)
    · rw [crawl_and_redownload_failed_positions] at hi
      rw [hi] at hval
      cases hval
      exact (henv o ho).2
  · intro hu
    have h0 : (crawl_and_redownload_failed_positions pages origUrls failed)[0]?
        = some "" := by
      rw [hu]
      rfl
    rcases crawlPages_values failed pages origUrls 0 0 with hv | ⟨_, o, ho, hval⟩
    · rw [crawl_and_redownload_failed_positions] at h0
      rw [h0] at hv
      have hlen : origUrls.length = 1 := by
        have := crawlPages_length failed pages origUrls 0
        rw [show crawlPages failed pages origUrls 0
            = crawl_and_redownload_failed_positions pages origUrls failed from rfl,
          hu] at this
        exact this.symm
      have : origUrls = [""] := by
        cases origUrls with
        | nil => simp at hlen
        | cons a rest =>
          cases rest with
          | nil =>
            simp at hv
            simp [hv]
          | cons b rest2 => simp at hlen
      exact hne this
    · rw [crawl_and_redownload_failed_positions] at h0
      rw [h0] at hval
      have : icon2Value o ≠ "" := (henv o ho).1
      simp at hval
      exact this hval.symm

theorem runPass0_length (wid : Nat) (done : List Nat) (env : Nat → NavOutcome)
    (chunk : List Item) :
    (runPass0 wid done env chunk).length
      = (chunk.filter (fun it => !done.contains it.row_index)).length := by
  induction chunk with
  | nil => rfl
  | cons it rest ih =>
    simp only [runPass0, List.filter_cons]
    by_cases h : done.contains it.row_index = true
    · have hm : it.row_index ∈ done := by simpa using h
      simp [hm, ih]
    · have hm : it.row_index ∉ done := fun hm => h (by simpa using hm)
      simp [hm, ih]

/-! ## Concrete sample data for witnesses and counterexamples -/

/-- A base-ledger row at row_index 5 with one failed download position. -/
def rowBase : Record :=
  { worker_id := 0
    row_index := 5
    application_number := "WEB1001/24"
    no_record_found := 0
    has_third_party_observation := true
    n_observation_letters := 2
    observation_urls := "u1;DOWNLOAD_FAILED"
    error := "" }

/-- A page-retry row for the same row_index 5. -/
def rowPageFix : Record :=
  { worker_id := 0
    row_index := 5
    application_number := "WEB1001/24"
    no_record_found := 0
    has_third_party_observation := true
    n_observation_letters := 1
    observation_urls := "p1"
    error := "" }

/-- A page-retry row at a row_index absent from the base ledger. -/
def rowPageFix6 : Record :=
  { worker_id := 1
    row_index := 6
    application_number := "WEB1002/24"
    no_record_found := 0
    has_third_party_observation := false
    n_observation_letters := 0
    observation_urls := ""
    error := "" }

/-- A download-retry row for row_index 5 whose count column disagrees
with the base row's count. -/
def rowDlFix : Record :=
  { worker_id := 0
    row_index := 5
    application_number := "WEB1001/24"
    no_record_found := 0
    has_third_party_observation := true
    n_observation_letters := 7
    observation_urls := "u1;u2"
    error := "" }

/-- A ledger row with a non-empty error that does not match the
navigation-failure pattern, and one failed download position. -/
def rowOtherErr : Record :=
  { worker_id := 2
    row_index := 9
    application_number := "WEB1003/24"
    no_record_found := 0
    has_third_party_observation := true
    n_observation_letters := 2
    observation_urls := "u1;DOWNLOAD_FAILED"
    error := "ConnectionError(reset)" }

/-- A ledger row with a navigation-failure error. -/
def rowPageErr : Record :=
  { worker_id := 2
    row_index := 10
    application_number := "WEB1004/24"
    no_record_found := 0
    has_third_party_observation := false
    n_observation_letters := 0
    observation_urls := ""
    error := "TimeoutError: Page.goto: Timeout 45000ms exceeded" }

/-- A summary region whose first read shows the zero marker and whose
re-read (after the pause) no longer does. -/
def senvFlaky : SummaryEnv :=
  { infoCount := 1
    read0 := "Showing 0 to 0 of 0 entries"
    read1 := "Showing 1 to 1 of 1 entries" }

/-- A stable zero-records summary region. -/
def senvZero : SummaryEnv :=
  { infoCount := 1
    read0 := "Showing 0 to 0 of 0 entries"
    read1 := "Showing 0 to 0 of 0 entries" }

/-- A summary region showing matches. -/
def senvSome : SummaryEnv :=
  { infoCount := 1
    read0 := "Showing 1 to 3 of 3 entries"
    read1 := "Showing 1 to 3 of 3 entries" }

/-- A sample item. -/
def itemX : Item := { row_index := 5, application_number := "WEB1432/24" }

/-- The single-read no-records test spelled out. -/
theorem page_has_no_records_iff (senv : SummaryEnv) :
    page_has_no_records senv = true
      ↔ senv.infoCount ≠ 0
        ∧ containsSub NO_RECORDS_MARKER senv.read0 = true := by
  unfold page_has_no_records
  by_cases h0 : senv.infoCount = 0
  · simp [h0]
  · simp [h0]

/-- C4.  For every targeted re-fetch of an item, the output position list
has the same length as the input list, equals the input at every index
not in failed_indices, and any changed value is the value produced by one
of the crawl's resolution attempts (a locator, EXISTS, or
DOWNLOAD_FAILED).  Confirms the frame property of
crawl_and_redownload_failed_positions. -/
theorem claim_C4_targeted_refetch_frame (pages : List (List IconOutcome2))
    (origUrls : List String) (failed : List Nat) :
    (crawl_and_redownload_failed_positions pages origUrls failed).length
        = origUrls.length
      ∧ (∀ i, i ∉ failed →
          (crawl_and_redownload_failed_positions pages origUrls failed)[i]?
            = origUrls[i]?)
      ∧ (∀ i,
          (crawl_and_redownload_failed_positions pages origUrls failed)[i]?
              = origUrls[i]?
            ∨ (i ∈ failed ∧ ∃ o ∈ pages.flatten,
                (crawl_and_redownload_failed_positions pages origUrls failed)[i]?
                  = some (icon2Value o))) :=
  ⟨crawlPages_length failed pages origUrls 0,
   fun i hi => crawlPages_frame failed pages origUrls 0 i hi,
   fun i => crawlPages_values failed pages origUrls 0 i⟩

/-- Witness for C4 at a concrete crawl: position 1 is retried and
positions 0 and 2 are preserved. -/
theorem claim_C4_witness :
    (0 ∉ ([1] : List Nat))
      ∧ (crawl_and_redownload_failed_positions
            [[IconOutcome2.resolved "a", IconOutcome2.resolved "u2x",
              IconOutcome2.resolved "c"]]
            ["u1", "DOWNLOAD_FAILED", "u3"] [1])[0]?
          = (["u1", "DOWNLOAD_FAILED", "u3"] : List String)[0]? :=
  ⟨by decide,
   (claim_C4_targeted_refetch_frame
      [[IconOutcome2.resolved "a", IconOutcome2.resolved "u2x",
        IconOutcome2.resolved "c"]]
      ["u1", "DOWNLOAD_FAILED", "u3"] [1]).2.1 0 (by decide)⟩

/-- C5.  The work partitioner returns the slice
[w * (T / N), T if w = N - 1 else (w + 1) * (T / N)); the N slices are
pairwise disjoint and their union is [0, T); the slice is a pure function
of (T, N, w) by construction.  Confirms the shard computation of the
worker scripts. -/
theorem claim_C5_partition (T N : Nat) (hN : 1 ≤ N) :
    (∀ w, shard_bounds T N w
        = (w * (T / N), if w = N - 1 then T else (w + 1) * (T / N)))
      ∧ (∀ w1 w2, w1 < N → w2 < N → w1 ≠ w2 →
          Disjoint (shard T N w1) (shard T N w2))
      ∧ (Finset.range N).biUnion (fun w => shard T N w) = Finset.range T :=
  ⟨fun _ => rfl,
   fun w1 w2 h1 h2 hne => shard_disjoint T N w1 w2 h1 h2 hne,
   shard_biUnion T N hN⟩

/-- Witness for C5 with 5 items and 2 workers. -/
theorem claim_C5_witness :
    1 ≤ 2
      ∧ (Finset.range 2).biUnion (fun w => shard 5 2 w) = Finset.range 5 :=
  ⟨by decide, (claim_C5_partition 5 2 (by decide)).2.2⟩

/-- C10.  In the merge, a row_index present in the page-level retry
ledger but absent from the base is added as a new row (pandas
setting-with-enlargement), while a row_index present only in the
download-level retry ledger is skipped and never adds a row; hence the
merged dataset's key set is exactly the base keys united with the
page-retry keys.  Confirms the key-set behavior of 3a.merge_outputs. -/
theorem claim_C10_merge_keys (workers : List DS) (page_fix dl_fix : DS)
    (i : Nat) :
    i ∈ dsKeys (merge_outputs workers page_fix dl_fix)
      ↔ i ∈ dsKeys workers.flatten ∨ i ∈ dsKeys page_fix := by
  simp only [merge_outputs]
  rw [dsKeys_foldl_patch dl_fix, dsKeys_foldl_setRow page_fix
      (drop_duplicates_first workers.flatten) i,
    dsKeys_drop_duplicates_first workers.flatten i]

/-- C1 counterexample.  In the merge, a download-retry patch overwrites
only the observation_urls column; the n_observation_letters
(observation_count) column keeps the base row's value even when the
retry row's count differs, contrary to the claim that the
positions/observation_count fields are both overwritten.  Here the base
row has count 2 and the retry row count 7, yet the merged row still has
count 2. -/
theorem claim_C1_counterexample :
    lookupRow (merge_outputs [[(5, rowBase)]] [] [(5, rowDlFix)]) 5
        = some { rowBase with observation_urls := rowDlFix.observation_urls }
      ∧ (lookupRow (merge_outputs [[(5, rowBase)]] [] [(5, rowDlFix)]) 5).map
          Record.n_observation_letters = some 2
      ∧ rowDlFix.n_observation_letters = 7 := by
  decide

/-- C1 (amended).  In every merge invocation: a row_index present in the
page-level retry ledger and absent from the download-level retry ledger
has its entire row replaced with the page-retry row; a row_index present
only in the download-level retry ledger has only its observation_urls
(positions) field overwritten, with observation_count and every other
field of the base row left unchanged. -/
theorem claim_C1_amended (workers : List DS) (page_fix dl_fix : DS)
    (hpf : (dsKeys page_fix).Nodup) (hdf : (dsKeys dl_fix).Nodup) :
    (∀ i r, (i, r) ∈ page_fix → i ∉ dsKeys dl_fix →
        lookupRow (merge_outputs workers page_fix dl_fix) i = some r)
      ∧ (∀ i rd, (i, rd) ∈ dl_fix → i ∉ dsKeys page_fix →
          ∀ rb, lookupRow (drop_duplicates_first workers.flatten) i = some rb →
            lookupRow (merge_outputs workers page_fix dl_fix) i
              = some { rb with observation_urls := rd.observation_urls }) := by
  constructor
  · intro i r hmem hnot
    simp only [merge_outputs]
    rw [lookupRow_foldl_patch_notmem dl_fix _ i hnot]
    exact lookupRow_foldl_setRow_mem page_fix i r _ hpf hmem
  · intro i rd hmem hnot rb hrb
    simp only [merge_outputs]
    rw [lookupRow_foldl_patch_mem dl_fix i rd _ hdf hmem,
      lookupRow_foldl_setRow_notmem page_fix _ i hnot, hrb]
    rfl

/-- Witness for C1 at a concrete merge: the page-retry row at row_index
6 lands whole, the download-retry patch at row_index 5 rewrites only the
urls of the base row. -/
theorem claim_C1_witness :
    lookupRow (merge_outputs [[(5, rowBase)]] [(6, rowPageFix6)]
        [(5, rowDlFix)]) 6 = some rowPageFix6
      ∧ lookupRow (merge_outputs [[(5, rowBase)]] [(6, rowPageFix6)]
          [(5, rowDlFix)]) 5
        = some { rowBase with observation_urls := rowDlFix.observation_urls } :=
  ⟨(claim_C1_amended [[(5, rowBase)]] [(6, rowPageFix6)] [(5, rowDlFix)]
      (by decide) (by decide)).1 6 rowPageFix6 (by decide) (by decide),
   (claim_C1_amended [[(5, rowBase)]] [(6, rowPageFix6)] [(5, rowDlFix)]
      (by decide) (by decide)).2 5 rowDlFix (by decide) (by decide) rowBase
      (by decide)⟩

/-- C7 counterexample.  When a row_index appears in both retry ledgers,
the download patch is applied after the page override, so the merged
row's observation_urls comes from the download-retry ledger, not from
the page-retry row: the merged row differs from the page-retry row. -/
theorem claim_C7_counterexample :
    lookupRow (merge_outputs [[(5, rowBase)]] [(5, rowPageFix)]
        [(5, rowDlFix)]) 5 ≠ some rowPageFix
      ∧ lookupRow (merge_outputs [[(5, rowBase)]] [(5, rowPageFix)]
          [(5, rowDlFix)]) 5
        = some { rowPageFix with
            observation_urls := rowDlFix.observation_urls } := by
  decide

/-- C7 (amended).  For a row_index present in both retry ledgers, the
merged row equals the page-retry row in every field except
observation_urls, which is taken from the download-retry ledger, because
the download patch is applied after the page override. -/
theorem claim_C7_amended (workers : List DS) (page_fix dl_fix : DS)
    (hpf : (dsKeys page_fix).Nodup) (hdf : (dsKeys dl_fix).Nodup)
    (i : Nat) (rp rd : Record)
    (hp : (i, rp) ∈ page_fix) (hd : (i, rd) ∈ dl_fix) :
    lookupRow (merge_outputs workers page_fix dl_fix) i
      = some { rp with observation_urls := rd.observation_urls } := by
  simp only [merge_outputs]
  rw [lookupRow_foldl_patch_mem dl_fix i rd _ hdf hd,
    lookupRow_foldl_setRow_mem page_fix i rp _ hpf hp]
  rfl

/-- Witness for C7 at the concrete overlapping merge. -/
theorem claim_C7_witness :
    lookupRow (merge_outputs [[(5, rowBase)]] [(5, rowPageFix)]
        [(5, rowDlFix)]) 5
      = some { rowPageFix with
          observation_urls := rowDlFix.observation_urls } :=
  claim_C7_amended [[(5, rowBase)]] [(5, rowPageFix)] [(5, rowDlFix)]
    (by decide) (by decide) 5 rowPageFix rowDlFix (by decide) (by decide)

/-- C3.  Re-invoking a pass against a ledger that already contains
entries for part of its item set appends no row for any row_index
already in that ledger and exactly one row for each remaining item, in
both the initial worker (done set loaded once) and the download-retry
worker (done set loaded and grown per append).  Confirms the resume
logic of 0.scrape and 2b.rerun_download_failures. -/
theorem claim_C3_idempotent_resume (wid : Nat) (ledger : List Record)
    (env : Nat → NavOutcome) (chunk : List Item)
    (hnd : (itemKeys chunk).Nodup)
    (ledger2 : List Record) (env2 : Nat → DlEnv) (ts : List DlTask) :
    (∀ i, i ∈ load_done_rows ledger →
        (runPass0 wid (load_done_rows ledger) env chunk).countP
          (fun r => r.row_index == i) = 0)
      ∧ (∀ it ∈ chunk, it.row_index ∉ load_done_rows ledger →
          (runPass0 wid (load_done_rows ledger) env chunk).countP
            (fun r => r.row_index == it.row_index) = 1)
      ∧ (∀ i, i ∈ load_done_rows ledger2 →
          (runPass2b (load_done_rows ledger2) env2 ts).countP
            (fun r => r.row_index == i) = 0)
      ∧ (∀ t ∈ ts, t.row_index ∉ load_done_rows ledger2 →
          (runPass2b (load_done_rows ledger2) env2 ts).countP
            (fun r => r.row_index == t.row_index) = 1) := by
  refine ⟨?_, ?_, ?_, ?_⟩
  · intro i hi
    rw [runPass0_countP wid (load_done_rows ledger) env i chunk hnd]
    exact if_neg (fun hc => hc.2 hi)
  · intro it hit hnot
    rw [runPass0_countP wid (load_done_rows ledger) env it.row_index chunk hnd]
    exact if_pos ⟨List.mem_map_of_mem Item.row_index hit, hnot⟩
  · intro i hi
    rw [runPass2b_countP env2 i ts (load_done_rows ledger2)]
    exact if_neg (fun hc => hc.2 hi)
  · intro t ht hnot
    rw [runPass2b_countP env2 t.row_index ts (load_done_rows ledger2)]
    exact if_pos ⟨List.mem_map_of_mem DlTask.row_index ht, hnot⟩

/-- Witness for C3: a relaunch over items 5 and 6 with item 5 already in
the ledger appends no row for 5 and exactly one row for 6. -/
theorem claim_C3_witness :
    (runPass0 0 (load_done_rows [rowBase]) (fun _ => NavOutcome.err "E")
        [itemX, { row_index := 6, application_number := "WEB9" }]).countP
      (fun r => r.row_index == 5) = 0
      ∧ (runPass0 0 (load_done_rows [rowBase]) (fun _ => NavOutcome.err "E")
          [itemX, { row_index := 6, application_number := "WEB9" }]).countP
        (fun r => r.row_index == 6) = 1 :=
  ⟨(claim_C3_idempotent_resume 0 [rowBase] (fun _ => NavOutcome.err "E")
      [itemX, { row_index := 6, application_number := "WEB9" }] (by decide)
      [] (fun _ => ⟨fun _ => true, "", senvSome, []⟩) []).1 5 (by decide),
   (claim_C3_idempotent_resume 0 [rowBase] (fun _ => NavOutcome.err "E")
      [itemX, { row_index := 6, application_number := "WEB9" }] (by decide)
      [] (fun _ => ⟨fun _ => true, "", senvSome, []⟩) []).2.1
      { row_index := 6, application_number := "WEB9" } (by decide) (by decide)⟩

/-- C6 counterexample.  A ledger row whose error is non-empty but does
not contain the navigation-failure pattern is NOT added to the page
failure list; it falls through and, since its positions contain the
sentinel, is added to the download failure list instead, contrary to the
claim that every non-empty-error entry is page-classified. -/
theorem claim_C6_counterexample :
    pyStrip rowOtherErr.error ≠ ""
      ∧ (collect_failures [rowOtherErr]).1 = []
      ∧ (collect_failures [rowOtherErr]).2 = [mkDlRow rowOtherErr] := by
  decide

/-- C6 (amended).  The classifier adds to the page failure list exactly
the entries whose stripped error is non-empty and contains the
navigation-failure pattern Page.goto; any other entry whose serialized
positions contain the DOWNLOAD_FAILED sentinel is added to the download
failure list along with the exact indices at which its split positions
equal the sentinel; with distinct row indices, no entry is in both
lists. -/
theorem claim_C6_amended (L : List Record) :
    (collect_failures L).1 = L.filter pageCond
      ∧ (collect_failures L).2
        = (L.filter (fun e => !pageCond e && dlCond e)).map mkDlRow
      ∧ (∀ e : Record, pageCond e = true
          ↔ pyStrip e.error ≠ ""
            ∧ containsSub "Page.goto" (pyStrip e.error) = true)
      ∧ (∀ e : Record, (mkDlRow e).failed_positions
          = ((splitSemi (pyStrip e.observation_urls)).enum.filter
              (fun p => p.2 == "DOWNLOAD_FAILED")).map Prod.fst)
      ∧ ((L.map Record.row_index).Nodup →
          ∀ i, i ∈ (collect_failures L).1.map Record.row_index →
            i ∉ (collect_failures L).2.map DlFailRow.row_index) := by
  refine ⟨(congrArg Prod.fst (collect_failures_eq L)),
    (congrArg Prod.snd (collect_failures_eq L)), ?_, fun e => rfl, ?_⟩
  · intro e
    unfold pageCond
    constructor
    · intro h
      simpa using h
    · intro h
      simp [h.1, h.2]
  · intro hnd i hpage hdl
    rw [congrArg Prod.fst (collect_failures_eq L)] at hpage
    rw [congrArg Prod.snd (collect_failures_eq L)] at hdl
    simp only [List.map_map, List.mem_map, Function.comp] at hpage hdl
    rcases hpage with ⟨e1, he1, hi1⟩
    rcases hdl with ⟨e2, he2, hi2⟩
    have he1m := List.mem_of_mem_filter he1
    have he2m := List.mem_of_mem_filter he2
    have hcond1 := List.of_mem_filter he1
    have hcond2 := List.of_mem_filter he2
    have hidx : e1.row_index = e2.row_index := by
      rw [hi1, ← hi2]
      rfl
    have : e1 = e2 := List.inj_on_of_nodup_map hnd he1m he2m hidx
    rw [this] at hcond1
    simp only [Bool.and_eq_true, Bool.not_eq_true'] at hcond2
    rw [hcond2.1] at hcond1
    exact Bool.false_ne_true hcond1

/-- Witness for C6: on a two-row ledger with one navigation failure and
one download failure, the page list holds exactly the navigation-failure
row and its row_index is absent from the download list. -/
theorem claim_C6_witness :
    (collect_failures [rowPageErr, rowOtherErr]).1 = [rowPageErr]
      ∧ rowPageErr.row_index
          ∉ (collect_failures [rowPageErr, rowOtherErr]).2.map
            DlFailRow.row_index :=
  ⟨((claim_C6_amended [rowPageErr, rowOtherErr]).1).trans (by decide),
   (claim_C6_amended [rowPageErr, rowOtherErr]).2.2.2.2 (by decide)
      rowPageErr.row_index (by decide)⟩

/-- C8 counterexample.  The claim asserts that every pass retries failed
navigation up to a fixed attempt cap with backoff between attempts; the
initial harvest worker makes exactly one page.goto call per item (the
goto sits alone inside the try block with no retry loop), so when every
attempt would fail the item sees one attempt, not two or more, and no
backoff sleep ever happens in that pass. -/
theorem claim_C8_counterexample :
    (navigate0 (fun _ => false) senvSome [] "TimeoutError(goto)").2 = 1
      ∧ ¬ 2 ≤ (navigate0 (fun _ => false) senvSome [] "TimeoutError(goto)").2 := by
  decide

/-- A pass appends the same number of rows whatever the portal does:
which rows the download-retry loop appends depends only on the done set
and the worklist, never on navigation outcomes, so a failing item never
shortens the pass. -/
theorem runPass2b_length_env (env env2 : Nat → DlEnv) :
    ∀ ts : List DlTask, ∀ done : List Nat,
      (runPass2b done env ts).length = (runPass2b done env2 ts).length := by
  intro ts
  induction ts with
  | nil =>
    intro done
    rfl
  | cons t rest ih =>
    intro done
    simp only [runPass2b]
    by_cases h : done.contains t.row_index = true
    · rw [if_pos h, if_pos h]
      exact ih done
    · rw [if_neg h, if_neg h]
      simp [ih (t.row_index :: done)]

/-- C8 (amended).  In the classifier-driven retry passes, safe_goto
retries navigation up to the fixed cap of 3 attempts, sleeping
BACKOFF_BASE_S * attempt seconds between attempts — a linearly growing
schedule whose realized sleeps are 6 then 12 seconds; in the initial
harvest pass navigation is attempted exactly once, with no retry or
backoff.  When every attempt fails, the item's ledger entry is written
with the error field populated and the pass continues with the next
item: in the initial pass and the page-failure retry pass the entry
carries an empty position list and zero count, while in the
download-failure retry pass the entry is the write-through of the input
row, keeping the original position list and its count unchanged (that
pass only ever navigates for rows with failed positions and a non-empty
original list).  Pass continuation: the set of appended rows never
depends on navigation outcomes. -/
theorem claim_C8_amended :
    (∀ ok : Nat → Bool, (∀ a, ok a = false) →
        safe_goto ok
          = { success := false, attempts := GOTO_ATTEMPTS,
              sleeps := [BACKOFF_BASE_S * 1, BACKOFF_BASE_S * 2] })
      ∧ (safe_goto (fun _ => false)).sleeps = [6, 12]
      ∧ (∀ ok senv pages msg, (∀ a, ok a = false) → ∀ wid it,
          processItem2a wid it ok msg senv pages
            = { worker_id := wid, row_index := it.row_index,
                application_number := it.application_number,
                no_record_found := 0, has_third_party_observation := false,
                n_observation_letters := 0, observation_urls := "",
                error := msg })
      ∧ (∀ wid it msg ok senv pages,
          (navigate0 ok senv pages msg).2 = 1
            ∧ processItem0 wid it (NavOutcome.err msg)
              = { worker_id := wid, row_index := it.row_index,
                  application_number := it.application_number,
                  no_record_found := 0, has_third_party_observation := false,
                  n_observation_letters := 0, observation_urls := "",
                  error := msg })
      ∧ (∀ t ok msg senv pages, (∀ a, ok a = false) →
          ¬(t.failed_positions = []
              ∨ (parsePositions t.observation_urls).length = 0) →
            processItem2b t ok msg senv pages
              = { worker_id := t.worker_id, row_index := t.row_index,
                  application_number := t.application_number,
                  no_record_found := 0, has_third_party_observation := false,
                  n_observation_letters
                    := (parsePositions t.observation_urls).length,
                  observation_urls := t.observation_urls,
                  error := msg })
      ∧ (∀ wid done env chunk,
          (runPass0 wid done env chunk).length
            = (chunk.filter (fun it => !done.contains it.row_index)).length)
      ∧ (∀ env env2 ts done,
          (runPass2b done env ts).length
            = (runPass2b done env2 ts).length) := by
  have hsg : ∀ ok : Nat → Bool, (∀ a, ok a = false) →
      safe_goto ok
        = { success := false, attempts := GOTO_ATTEMPTS,
            sleeps := [BACKOFF_BASE_S * 1, BACKOFF_BASE_S * 2] } := by
    intro ok h
    simp [safe_goto, safeGotoAux, GOTO_ATTEMPTS, h]
  refine ⟨hsg, ?_, ?_, ?_, ?_, ?_, ?_⟩
  · rw [hsg (fun _ => false) (fun _ => rfl)]
    decide
  · intro ok senv pages msg h wid it
    simp only [processItem2a]
    rw [if_neg (by rw [hsg ok h]; simp)]
  · intro wid it msg ok senv pages
    constructor
    · unfold navigate0
      by_cases hok : ok 1 = true
      · rw [if_pos hok]
      · rw [if_neg hok]
    · rfl
  · intro t ok msg senv pages h hcond
    simp only [processItem2b]
    rw [if_neg hcond, if_neg (by rw [hsg ok h]; simp)]
  · exact runPass0_length
  · exact fun env env2 ts done => runPass2b_length_env env env2 ts done

/-- Witness for C8: the exhausted safe_goto trace at a concrete failing
navigation function, and the write-through-with-error record the
download-retry pass appends for a concrete task whose navigation always
fails. -/
theorem claim_C8_witness :
    safe_goto (fun _ => false)
        = { success := false, attempts := GOTO_ATTEMPTS,
            sleeps := [BACKOFF_BASE_S * 1, BACKOFF_BASE_S * 2] }
      ∧ processItem2b
          { row_index := 9, worker_id := 2,
            application_number := "WEB1003/24", failed_positions := [1],
            observation_urls := "u1;DOWNLOAD_FAILED" }
          (fun _ => false) "TimeoutError(goto)" senvSome []
        = { worker_id := 2, row_index := 9,
            application_number := "WEB1003/24", no_record_found := 0,
            has_third_party_observation := false,
            n_observation_letters
              := (parsePositions "u1;DOWNLOAD_FAILED").length,
            observation_urls := "u1;DOWNLOAD_FAILED",
            error := "TimeoutError(goto)" } :=
  ⟨claim_C8_amended.1 (fun _ => false) (fun _ => rfl),
   claim_C8_amended.2.2.2.2.1
     { row_index := 9, worker_id := 2, application_number := "WEB1003/24",
       failed_positions := [1], observation_urls := "u1;DOWNLOAD_FAILED" }
     (fun _ => false) "TimeoutError(goto)" senvSome [] (fun _ => rfl)
     (by decide)⟩

/-- C9 counterexample.  The harvest passes classify NO_RECORDS from a
single read of the summary region: on a region whose first read shows
the zero marker but whose re-read would not, the production
page_has_no_records still answers true and the item is recorded
NO_RECORDS, while the double-read-and-compare test the claim describes
(present only in the standalone tester script) answers false. -/
theorem claim_C9_counterexample :
    page_has_no_records senvFlaky = true
      ∧ page_has_no_records_double_read senvFlaky = false
      ∧ (processItem0 0 itemX (NavOutcome.ok senvFlaky [])).no_record_found
        = 1 := by
  decide

/-- C9 (amended).  An item is classified NO_RECORDS exactly when the
summary region is present and a single read of it contains the zero
marker — there is no confirming re-read in the harvest passes; the
classification is a valid outcome, with observation count 0, empty
position list and empty error, not a failure. -/
theorem claim_C9_amended (wid : Nat) (it : Item) (senv : SummaryEnv)
    (pages : List (List IconOutcome)) :
    ((processItem0 wid it (NavOutcome.ok senv pages)).no_record_found = 1
      ↔ senv.infoCount ≠ 0
        ∧ containsSub NO_RECORDS_MARKER senv.read0 = true)
      ∧ (page_has_no_records senv = true →
          (processItem0 wid it (NavOutcome.ok senv pages)).n_observation_letters
              = 0
            ∧ (processItem0 wid it (NavOutcome.ok senv pages)).observation_urls
              = ""
            ∧ (processItem0 wid it (NavOutcome.ok senv pages)).error = "") := by
  constructor
  · rw [← page_has_no_records_iff senv]
    simp only [processItem0]
    by_cases h : page_has_no_records senv = true
    · rw [if_pos h]
      simp [h]
    · rw [if_neg h]
      simp [h]
  · intro h
    simp only [processItem0]
    rw [if_pos h]
    exact ⟨rfl, rfl, rfl⟩

/-- Witness for C9 on a stable zero-records region: classified
NO_RECORDS with zero count. -/
theorem claim_C9_witness :
    (processItem0 0 itemX (NavOutcome.ok senvZero [])).n_observation_letters
        = 0
      ∧ (processItem0 0 itemX (NavOutcome.ok senvZero [])).error = "" :=
  ⟨((claim_C9_amended 0 itemX senvZero []).2 (by decide)).1,
   ((claim_C9_amended 0 itemX senvZero []).2 (by decide)).2.2⟩

/-- C2.  For every ledger entry written by the harvest and retry passes,
the recorded observation count equals the number of positions in the
recorded semicolon-joined position list, however many positions hold the
DOWNLOAD_FAILED or EXISTS sentinels — each resolution attempt occupies
exactly one position whether it succeeds or not.  The hypothesis states
that resolved locator values are non-empty and semicolon-free, which the
sentinels satisfy by construction and portal locators satisfy as https
addresses; without it the semicolon serialization itself would be
ambiguous.  Confirms the record construction of 0.scrape,
2a.rerun_failed_observations and 2b.rerun_download_failures. -/
theorem claim_C2_count_position_invariant :
    (∀ wid it msg,
        (processItem0 wid it (NavOutcome.err msg)).n_observation_letters
          = (parsePositions
              (processItem0 wid it (NavOutcome.err msg)).observation_urls).length)
      ∧ (∀ wid it senv pages,
          (∀ o ∈ pages.flatten, SemiFree (iconValue o)) →
            (processItem0 wid it
                (NavOutcome.ok senv pages)).n_observation_letters
              = (parsePositions (processItem0 wid it
                  (NavOutcome.ok senv pages)).observation_urls).length)
      ∧ (∀ wid it ok msg senv pages,
          (∀ o ∈ pages.flatten, SemiFree (icon2Value o)) →
            (processItem2a wid it ok msg senv pages).n_observation_letters
              = (parsePositions (processItem2a wid it ok msg senv
                  pages).observation_urls).length)
      ∧ (∀ t ok msg senv pages,
          (∀ o ∈ pages.flatten, SemiFree (icon2Value o)) →
            (processItem2b t ok msg senv pages).n_observation_letters
              = (parsePositions (processItem2b t ok msg senv
                  pages).observation_urls).length) := by
  refine ⟨?_, ?_, ?_, ?_⟩
  · intro wid it msg
    simp [processItem0, parsePositions]
  · intro wid it senv pages h
    simp only [processItem0]
    by_cases hnr : page_has_no_records senv = true
    · rw [if_pos hnr]
      simp [parsePositions]
    · rw [if_neg hnr]
      show (extract_all_pages_observations pages).length
        = (parsePositions
            (joinSemi (extract_all_pages_observations pages))).length
      refine (parse_join_length _ ?_).symm
      rw [extract_all_pages_observations_eq]
      intro t ht
      rcases List.mem_map.mp ht with ⟨o, ho, rfl⟩
      exact h o ho
  · intro wid it ok msg senv pages h
    simp only [processItem2a]
    by_cases hok : (safe_goto ok).success = true
    · rw [if_pos hok]
      by_cases hnr : page_has_no_records senv = true
      · rw [if_pos hnr]
        simp [parsePositions]
      · rw [if_neg hnr]
        show (extract_all_pages_observations2 pages).length
          = (parsePositions
              (joinSemi (extract_all_pages_observations2 pages))).length
        refine (parse_join_length _ ?_).symm
        rw [extract_all_pages_observations2_eq]
        intro t ht
        rcases List.mem_map.mp ht with ⟨o, ho, rfl⟩
        exact h o ho
    · rw [if_neg hok]
      simp [parsePositions]
  · intro t ok msg senv pages h
    simp only [processItem2b]
    by_cases h1 : t.failed_positions = []
        ∨ (parsePositions t.observation_urls).length = 0
    · rw [if_pos h1]
    · rw [if_neg h1]
      by_cases hok : (safe_goto ok).success = true
      · rw [if_pos hok]
        by_cases hnr : page_has_no_records senv = true
        · rw [if_pos hnr]
        · rw [if_neg hnr]
          show (crawl_and_redownload_failed_positions pages
              (parsePositions t.observation_urls) t.failed_positions).length
            = (parsePositions (joinSemi
                (crawl_and_redownload_failed_positions pages
                  (parsePositions t.observation_urls)
                  t.failed_positions))).length
          rw [crawl_output_parse pages (parsePositions t.observation_urls)
            t.failed_positions (parsePositions_no_semi t.observation_urls)
            (parsePositions_ne_singleton_empty t.observation_urls) h]
      · rw [if_neg hok]

/-- Witness for C2 on a concrete two-icon listing with one failed
resolution: count 2, position list of length 2. -/
theorem claim_C2_witness :
    (∀ o ∈ ([[IconOutcome.resolved "u1", IconOutcome.failed]] :
        List (List IconOutcome)).flatten, SemiFree (iconValue o))
      ∧ (processItem0 0 itemX (NavOutcome.ok senvSome
          [[IconOutcome.resolved "u1",
            IconOutcome.failed]])).n_observation_letters
        = (parsePositions (processItem0 0 itemX (NavOutcome.ok senvSome
            [[IconOutcome.resolved "u1",
              IconOutcome.failed]])).observation_urls).length :=
  ⟨by decide,
   claim_C2_count_position_invariant.2.1 0 itemX senvSome
     [[IconOutcome.resolved "u1", IconOutcome.failed]] (by decide)⟩
